import Mathlib

/-!
# Step-state machine of the pipeline wizard

Shallow embedding of the control logic in
`src/frontend/src/components/PipelineBuilder.js` (the two pieces of React
state, `updatePipelineState`, `handleStepComplete`, `handleStepChange`), of
`getStepStatus` and `isClickable` in `src/frontend/src/components/PipelineFlow.js`,
of the handlers around the service call in the four stage views, and of the
reset control of `StepResults.js`.

A handler is modelled as the function from the state of the render it closes
over to the state after its setter calls have been applied.  Step numbers are
integers, result slots hold JavaScript values, and the slot container is a
JavaScript object: an ordered list of own properties.
-/

namespace PipelineBuilder

/-! ## JavaScript values and objects -/

/-- The JavaScript values a slot of `pipelineState` is tested on.  Numbers are
restricted to the integers; an object carries its fields as text. -/
inductive JsValue where
  | undefined
  | null
  | boolean (b : Bool)
  | number (n : Int)
  | string (s : String)
  | object (fields : List (String × String))
  deriving DecidableEq, Repr

/-- ToBoolean, the test performed by `if (v)`. -/
def JsValue.truthy : JsValue → Bool
  | .undefined => false
  | .null => false
  | .boolean b => b
  | .number n => n != 0
  | .string s => s != ""
  | .object _ => true

/-- A plain object: own properties in insertion order. -/
abbrev JsObject := List (String × JsValue)

/-- Property read `o[k]`: the value of the property, `undefined` when absent. -/
def getProp : JsObject → String → JsValue
  | [], _ => JsValue.undefined
  | (k', v) :: rest, k => if k' = k then v else getProp rest k

/-- The object literal `{...o, [k]: v}`: the properties of `o` are copied in
order and `k` is then assigned, in place when present and at the end when not. -/
def setProp : JsObject → String → JsValue → JsObject
  | [], k, v => [(k, v)]
  | (k', v') :: rest, k, v =>
    if k' = k then (k, v) :: rest else (k', v') :: setProp rest k v

/-- Array read `xs[i]`: `undefined` (here `none`) outside `0 .. length - 1`. -/
def arrayGet {α : Type} (xs : List α) (i : Int) : Option α :=
  if i < 0 then none else xs.get? i.toNat

/-- Scan of `Array.prototype.findIndex` from position `i`. -/
def findIndexFrom {α : Type} (p : α → Bool) : List α → Int → Int
  | [], _ => -1
  | x :: xs, i => if p x then i else findIndexFrom p xs (i + 1)

/-- `xs.findIndex(p)`: the first position satisfying `p`, `-1` when none does. -/
def jsFindIndex {α : Type} (p : α → Bool) (xs : List α) : Int :=
  findIndexFrom p xs 0

/-- Coercion of a computed property key: the string itself, and the text
`undefined` for the value `undefined`. -/
def propertyKey : Option String → String
  | some k => k
  | none => "undefined"

/-! ## PipelineBuilder.js -/

/-- The stage views imported by `PipelineBuilder.js`. -/
inductive Component where
  | StepUpload
  | StepPreprocess
  | StepSplit
  | StepModel
  | StepResults
  deriving DecidableEq, Repr

/-- An entry of the `steps` table. -/
structure Step where
  id : Int
  name : String
  component : Component
  deriving DecidableEq, Repr

/-- The two `useState` cells of `PipelineBuilder`. -/
structure State where
  currentStep : Int
  pipelineState : JsObject
  deriving DecidableEq, Repr

/-- The arguments of the two `useState` calls (lines 11-18). -/
def initialState : State :=
  { currentStep := 1
    pipelineState :=
      [ ("upload_dataset", JsValue.null)
      , ("preprocess", JsValue.null)
      , ("split_data", JsValue.null)
      , ("select_model", JsValue.null)
      , ("view_results", JsValue.null) ] }

/-- The `steps` table (lines 27-33). -/
def steps : List Step :=
  [ { id := 1, name := "Upload Dataset", component := Component.StepUpload }
  , { id := 2, name := "Preprocess", component := Component.StepPreprocess }
  , { id := 3, name := "Split Data", component := Component.StepSplit }
  , { id := 4, name := "Select Model", component := Component.StepModel }
  , { id := 5, name := "View Results", component := Component.StepResults } ]

/-- The `stepKeys` array, written out identically in `handleStepComplete`,
`handleStepChange` and `getStepStatus`. -/
def stepKeys : List String :=
  ["upload_dataset", "preprocess", "split_data", "select_model", "view_results"]

/-- `updatePipelineState(step, data)` (lines 20-25):
`setPipelineState(prev => ({...prev, [step]: data}))`. -/
def updatePipelineState (s : State) (step : Option String) (data : JsValue) : State :=
  { s with pipelineState := setProp s.pipelineState (propertyKey step) data }

/-- `handleStepComplete(stepId, data)` (lines 35-41). -/
def handleStepComplete (s : State) (stepId : Int) (data : JsValue) : State :=
  let s1 := updatePipelineState s (arrayGet stepKeys (stepId - 1)) data
  if stepId < (steps.length : Int) then
    { s1 with currentStep := stepId + 1 }
  else
    s1

/-- `handleStepChange(stepId)` (lines 43-61). -/
def handleStepChange (s : State) (stepId : Int) : State :=
  let stepIndex := jsFindIndex (fun st => decide (st.id = stepId)) steps
  if stepId = 1 ∨ stepId ≤ s.currentStep then
    { s with currentStep := stepId }
  else if stepIndex > 0 then
    let prevStepKey := arrayGet stepKeys (stepIndex - 1)
    if (getProp s.pipelineState (propertyKey prevStepKey)).truthy then
      { s with currentStep := stepId }
    else
      s
  else
    s

/-! ## PipelineFlow.js -/

/-- The three strings returned by `getStepStatus`. -/
inductive StepStatus where
  | completed
  | active
  | pending
  deriving DecidableEq, Repr

/-- `getStepStatus(stepId)` (PipelineFlow.js lines 5-13), over the props
`currentStep` and `pipelineState`. -/
def getStepStatus (s : State) (stepId : Int) : StepStatus :=
  let stepKey := arrayGet stepKeys (stepId - 1)
  if stepId < s.currentStep then StepStatus.completed
  else if stepId = s.currentStep then StepStatus.active
  else if (getProp s.pipelineState (propertyKey stepKey)).truthy then StepStatus.completed
  else StepStatus.pending

/-! ## Vocabulary of the specification -/

/-- The slot of a stage, `PipelineState.get(stage)`: the property of
`pipelineState` named by the stage through `stepKeys`. -/
def stageSlot (s : State) (stage : Int) : JsValue :=
  getProp s.pipelineState (propertyKey (arrayGet stepKeys (stage - 1)))

/-- The status rule in the words of the specification (section 4.2, `statusOf`):
the stage equal to the active stage is active, a stage strictly before it is
completed, and a stage after it is completed when its slot is non-empty and
pending otherwise. -/
def statusOf (s : State) (stage : Int) : StepStatus :=
  if stage = s.currentStep then StepStatus.active
  else if stage < s.currentStep then StepStatus.completed
  else if (stageSlot s stage).truthy then StepStatus.completed
  else StepStatus.pending

/-! ## Sample results and states -/

/-- A success envelope of `POST /api/upload`. -/
def uploadResult : JsValue :=
  JsValue.object [("success", "true"), ("rows", "150"), ("columns", "5")]

/-- A success envelope of `POST /api/preprocess`. -/
def preResult : JsValue :=
  JsValue.object [("success", "true"), ("preprocessing_type", "standardization")]

/-- A second success envelope of `POST /api/preprocess`, from a rerun. -/
def newPreResult : JsValue :=
  JsValue.object [("success", "true"), ("preprocessing_type", "normalization")]

/-- A success envelope of `POST /api/split`. -/
def splitResult : JsValue :=
  JsValue.object [("success", "true"), ("train_size", "120"), ("test_size", "30")]

/-- A success envelope of `POST /api/train`. -/
def trainResult : JsValue :=
  JsValue.object [("success", "true"), ("model_type", "decision_tree")]

/-- The state after the upload stage has completed from the initial state. -/
def afterUpload : State := handleStepComplete initialState 1 uploadResult

/-- The state after stages 1 and 2 have completed in order. -/
def afterPreprocess : State := handleStepComplete afterUpload 2 preResult

/-- The state after stages 1, 2 and 3 have completed in order. -/
def afterSplit : State := handleStepComplete afterPreprocess 3 splitResult

/-- The state after stages 1 to 4 have completed in order. -/
def afterTrain : State := handleStepComplete afterSplit 4 trainResult

/-- A success envelope of `POST /api/train` with the fields the results view
reads without a guard: `accuracy`, `model_type` and `predictions_count`. -/
def trainedModel : JsValue :=
  JsValue.object
    [("success", "true"), ("accuracy", "0.93"), ("model_type", "decision_tree"),
      ("predictions_count", "30")]

/-- The state after stages 1 to 4 have completed in order, the last with
`trainedModel`: the results view is mounted and shows the reset button. -/
def resultsShown : State := handleStepComplete afterSplit 4 trainedModel

/-- The state after the upload has completed and the user has gone back to
stage 1 while the preprocessing call of stage 2 is still in flight. -/
def backAtUpload : State := handleStepChange afterUpload 1

/-! ## PipelineFlow.js: what can be clicked -/

/-- `isClickable` of the element rendered for `step` at position `index` by
`steps.map((step, index) => ...)` (PipelineFlow.js lines 18-19). -/
def isClickable (s : State) (step : Step) (index : Nat) : Bool :=
  let status := getStepStatus s step.id
  decide (status = StepStatus.completed) || decide (status = StepStatus.active)
    || decide (index = 0)

/-- The click handler of that element, `() => isClickable && onStepClick(step.id)`
(PipelineFlow.js line 26), `onStepClick` being `handleStepChange`. -/
def onClick (s : State) (step : Step) (index : Nat) : State :=
  if isClickable s step index then handleStepChange s step.id else s

/-- A click on the flow element at position `index`; there is no element, and
nothing happens, outside the `steps` table. -/
def flowClick (s : State) (index : Nat) : State :=
  match steps.get? index with
  | some step => onClick s step index
  | none => s

/-! ## The mounted view and the reset control -/

/-- `CurrentStepComponent = steps[currentStep - 1].component`
(PipelineBuilder.js line 63); `none` when `steps[currentStep - 1]` is
`undefined` and the member read throws. -/
def CurrentStepComponent (s : State) : Option Component :=
  (arrayGet steps (s.currentStep - 1)).map Step.component

/-- Whether the member read `v.name` finds a property: an object of the model
carries its fields by name, and on a primitive the read yields `undefined`. -/
def JsValue.hasField (v : JsValue) (name : String) : Bool :=
  match v with
  | JsValue.object fields => fields.any (fun p => decide (p.1 = name))
  | _ => false

/-- Whether the element tree returned by a stage view contains the button
`Start New Pipeline` with `onClick={handleReset}`.  Only `StepResults.js`
defines `handleReset`.  Its first return (lines 30-39, taken when
`!pipelineState.select_model`) has no button.  Its second return (lines 43-134)
has the button (lines 126-132), but the whole tree is evaluated first, with
`modelInfo = pipelineState.select_model`: line 68 calls
`modelInfo.predictions_count.toLocaleString()`, which throws when the property
is absent, and then nothing is rendered.  Whether the rest of that evaluation
completes (the calls of `toFixed` and `toLocaleString` on lines 54, 68, 108-110
and 118 and the validity of the rendered children) depends on the JavaScript
types of the fields of `modelInfo`, which the text of a field does not tell; it
is the argument `bodyCompletes`.  The other four views render no such control. -/
def rendersResetButton (bodyCompletes : JsValue → Bool) (c : Component)
    (pipelineState : JsObject) : Bool :=
  match c with
  | Component.StepResults =>
    if !(getProp pipelineState "select_model").truthy then false
    else if !(getProp pipelineState "select_model").hasField "predictions_count" then false
    else bodyCompletes (getProp pipelineState "select_model")
  | Component.StepUpload => false
  | Component.StepPreprocess => false
  | Component.StepSplit => false
  | Component.StepModel => false

/-- Whether the view mounted in a state offers the reset control. -/
def offersReset (bodyCompletes : JsValue → Bool) (s : State) : Bool :=
  match CurrentStepComponent s with
  | some c => rendersResetButton bodyCompletes c s.pipelineState
  | none => false

/-- The calls `handleReset` makes after the awaited `POST /api/reset`. -/
inductive ResetEffect where
  | locationReload
  | consoleError
  deriving DecidableEq, Repr

/-- `handleReset` (StepResults.js lines 21-28): when the awaited post resolves
it calls `window.location.reload()`; when it rejects, the `catch` block calls
`console.error`.  It calls no setter of `PipelineBuilder`, and `StepResults`
receives none. -/
def handleReset (postResolved : Bool) : List ResetEffect :=
  if postResolved then [ResetEffect.locationReload] else [ResetEffect.consoleError]

/-- The state of `PipelineBuilder` after one of these calls.  `console.error`
leaves it as it is.  `window.location.reload()` is the browser loading the
document again: the running component is discarded with both of its cells, and
the `PipelineBuilder` mounted by `App` on the new load starts from the
arguments of its two `useState` calls (lines 11-18), nothing being kept
elsewhere.  This behaviour of the browser is taken as given. -/
def applyResetEffect (s : State) : ResetEffect → State
  | ResetEffect.locationReload => initialState
  | ResetEffect.consoleError => s

/-- The state of `PipelineBuilder` after a click on the reset button, for each
outcome of the post. -/
def afterReset (s : State) (postResolved : Bool) : State :=
  (handleReset postResolved).foldl applyResetEffect s

/-! ## The stage views: the handlers around the service call -/

/-- What an awaited `axios.post` hands to a handler: a response whose
`response.data` is the parsed envelope, or a rejection (transport failure or an
error status), of which the handler reads `err.response?.data?.error`.  Any
other exception thrown inside the `try` block is caught the same way, with that
read yielding `undefined`. -/
inductive CallOutcome where
  | resolved (data : JsObject)
  | rejected (serverError : JsValue)
  deriving DecidableEq, Repr

/-- The calls a handler of a stage view makes: its own three setters and the
`onComplete` callback received from `PipelineBuilder`. -/
inductive ViewEffect where
  | setBusy (b : Bool)
  | setError (message : JsValue)
  | setInfo (data : JsValue)
  | onComplete (stepId : Int) (data : JsValue)
  deriving DecidableEq, Repr

/-- The operator `a || b`. -/
def jsOr (a b : JsValue) : JsValue :=
  if a.truthy then a else b

/-- `String(v)`, the text of a value. -/
def JsValue.text : JsValue → String
  | .undefined => "undefined"
  | .null => "null"
  | .boolean b => if b then "true" else "false"
  | .number n => toString n
  | .string s => s
  | .object _ => "[object Object]"

/-- The envelope `response.data` as the value handed on to `setInfo` and
`onComplete`: the same properties, each carried as text. -/
def resultOf (data : JsObject) : JsValue :=
  JsValue.object (data.map (fun p => (p.1, p.2.text)))

/-- `onDrop` of `StepUpload.js` (lines 11-39). -/
def onDrop (acceptedFilesLength : Nat) (outcome : CallOutcome) : List ViewEffect :=
  if acceptedFilesLength = 0 then []
  else
    [ViewEffect.setBusy true, ViewEffect.setError JsValue.null]
    ++ (match outcome with
        | CallOutcome.resolved data =>
          if (getProp data "success").truthy then
            [ViewEffect.setInfo (resultOf data), ViewEffect.onComplete 1 (resultOf data)]
          else
            [ViewEffect.setError (jsOr (getProp data "error") (JsValue.string "Upload failed"))]
        | CallOutcome.rejected serverError =>
          [ViewEffect.setError (jsOr serverError
            (JsValue.string "Error uploading file. Make sure the backend is running."))])
    ++ [ViewEffect.setBusy false]

/-- `handlePreprocess` of `StepPreprocess.js` (lines 21-52). -/
def handlePreprocess (targetColumn preprocessingType : String) (stepId : Int)
    (outcome : CallOutcome) : List ViewEffect :=
  if !(JsValue.string targetColumn).truthy then
    [ViewEffect.setError (JsValue.string "Please select a target column")]
  else if !(JsValue.string preprocessingType).truthy then
    [ViewEffect.setError (JsValue.string "Please select a preprocessing method")]
  else
    [ViewEffect.setBusy true, ViewEffect.setError JsValue.null]
    ++ (match outcome with
        | CallOutcome.resolved data =>
          if (getProp data "success").truthy then
            [ViewEffect.setInfo (resultOf data), ViewEffect.onComplete stepId (resultOf data)]
          else
            [ViewEffect.setError
              (jsOr (getProp data "error") (JsValue.string "Preprocessing failed"))]
        | CallOutcome.rejected serverError =>
          [ViewEffect.setError (jsOr serverError
            (JsValue.string "Error preprocessing data. Make sure the backend is running."))])
    ++ [ViewEffect.setBusy false]

/-- `handleSplit` of `StepSplit.js` (lines 11-31). -/
def handleSplit (stepId : Int) (outcome : CallOutcome) : List ViewEffect :=
  [ViewEffect.setBusy true, ViewEffect.setError JsValue.null]
  ++ (match outcome with
      | CallOutcome.resolved data =>
        if (getProp data "success").truthy then
          [ViewEffect.setInfo (resultOf data), ViewEffect.onComplete stepId (resultOf data)]
        else
          [ViewEffect.setError (jsOr (getProp data "error") (JsValue.string "Split failed"))]
      | CallOutcome.rejected serverError =>
        [ViewEffect.setError (jsOr serverError
          (JsValue.string "Error splitting data. Make sure the backend is running."))])
  ++ [ViewEffect.setBusy false]

/-- `handleTrain` of `StepModel.js` (lines 11-36). -/
def handleTrain (selectedModel : String) (stepId : Int) (outcome : CallOutcome) :
    List ViewEffect :=
  if !(JsValue.string selectedModel).truthy then
    [ViewEffect.setError (JsValue.string "Please select a model")]
  else
    [ViewEffect.setBusy true, ViewEffect.setError JsValue.null]
    ++ (match outcome with
        | CallOutcome.resolved data =>
          if (getProp data "success").truthy then
            [ViewEffect.setInfo (resultOf data), ViewEffect.onComplete stepId (resultOf data)]
          else
            [ViewEffect.setError (jsOr (getProp data "error") (JsValue.string "Training failed"))]
        | CallOutcome.rejected serverError =>
          [ViewEffect.setError (jsOr serverError
            (JsValue.string "Error training model. Make sure the backend is running."))])
    ++ [ViewEffect.setBusy false]

/-- The effect of one call of a view on the state of `PipelineBuilder`: the
view holds only `onComplete`, which is `handleStepComplete`; its own setters
touch the local state of the view. -/
def applyEffect (s : State) : ViewEffect → State
  | ViewEffect.onComplete stepId data => handleStepComplete s stepId data
  | ViewEffect.setBusy _ => s
  | ViewEffect.setError _ => s
  | ViewEffect.setInfo _ => s

/-- The calls of a handler applied in order. -/
def applyEffects (s : State) (effects : List ViewEffect) : State :=
  effects.foldl applyEffect s

/-- Whether `onComplete` is invoked among the calls. -/
def invokesOnComplete (effects : List ViewEffect) : Bool :=
  effects.any (fun e =>
    match e with
    | ViewEffect.onComplete _ _ => true
    | _ => false)

/-- Whether an error message (a non-empty value) is set among the calls. -/
def setsErrorMessage (effects : List ViewEffect) : Bool :=
  effects.any (fun e =>
    match e with
    | ViewEffect.setError message => message.truthy
    | _ => false)

/-- Whether the service call returned an envelope whose `success` passes the
test `if (response.data.success)`. -/
def succeeded : CallOutcome → Bool
  | CallOutcome.resolved data => (getProp data "success").truthy
  | CallOutcome.rejected _ => false

/-- The contract of a handler, as a function of the outcome of its service
call, towards `PipelineBuilder`: `onComplete` is invoked exactly on success,
then once for `stepId` with the envelope; otherwise an error message is set and
the state of `PipelineBuilder` is left as it was. -/
def ViewContract (handler : CallOutcome → List ViewEffect) (stepId : Int) : Prop :=
  ∀ outcome : CallOutcome,
    (invokesOnComplete (handler outcome) = true ↔ succeeded outcome = true) ∧
    (∀ data, outcome = CallOutcome.resolved data → succeeded outcome = true →
      ∀ st, applyEffects st (handler outcome) = handleStepComplete st stepId (resultOf data)) ∧
    (succeeded outcome = false →
      setsErrorMessage (handler outcome) = true ∧
      ∀ st, applyEffects st (handler outcome) = st)

/-! ## Runs of the wizard -/

/-- The events that act on the state of `PipelineBuilder`. -/
inductive Event where
  | stepChange (stepId : Int)
  | stepComplete (stepId : Int) (data : JsValue)
  | click (index : Nat)
  deriving DecidableEq, Repr

/-- The transition of one event. -/
def applyEvent (s : State) : Event → State
  | Event.stepChange stepId => handleStepChange s stepId
  | Event.stepComplete stepId data => handleStepComplete s stepId data
  | Event.click index => flowClick s index

/-- The state after a sequence of events. -/
def run (s : State) (events : List Event) : State :=
  events.foldl applyEvent s

/-- Whether every event of a sequence passes `guard` in the state it occurs in. -/
def validTrace (guard : State → Event → Bool) (s : State) : List Event → Bool
  | [] => true
  | e :: rest => guard s e && validTrace guard (applyEvent s e) rest

/-- A stage number, 1 to 5. -/
def isStage (k : Int) : Bool :=
  decide (1 ≤ k) && decide (k ≤ 5)

/-- Any call of the two handlers with a stage number: any `handleStepChange(t)`
and any `handleStepComplete(s, r)`. -/
def anyCall (_s : State) : Event → Bool
  | Event.stepChange t => isStage t
  | Event.stepComplete k _ => isStage k
  | Event.click _ => false

/-- Any `handleStepChange(t)` with a stage number, and `handleStepComplete(s, r)`
with a non-empty result for a stage that is the first or whose preceding stage
has a non-empty slot. -/
def orderedCall (s : State) : Event → Bool
  | Event.stepChange t => isStage t
  | Event.stepComplete k r =>
    isStage k && r.truthy && (decide (k = 1) || (stageSlot s (k - 1)).truthy)
  | Event.click _ => false

/-- Any `handleStepChange(t)` with a stage number, and the completion of the
mounted stage, `handleStepComplete(currentStep, r)`, with a non-empty result. -/
def mountedCall (s : State) : Event → Bool
  | Event.stepChange t => isStage t
  | Event.stepComplete k r => decide (k = s.currentStep) && r.truthy
  | Event.click _ => false

/-- A click on a flow element that `PipelineFlow` renders clickable, and the
completion of the mounted stage with a non-empty result. -/
def flowCall (s : State) : Event → Bool
  | Event.stepChange _ => false
  | Event.stepComplete k r => decide (k = s.currentStep) && r.truthy
  | Event.click index =>
    match steps.get? index with
    | some step => isClickable s step index
    | none => false

/-- The invariant of the wizard: the current step is a stage, the non-empty
slots are exactly those of the stages 1 to m for some m, and the current step is
at most m + 1. -/
def FilledInOrder (s : State) : Prop :=
  ∃ m : Int, 0 ≤ m ∧ m ≤ 5 ∧
    (∀ i : Int, 1 ≤ i → i ≤ 5 → ((stageSlot s i).truthy = true ↔ i ≤ m)) ∧
    1 ≤ s.currentStep ∧ s.currentStep ≤ 5 ∧ s.currentStep ≤ m + 1

/-- The state in which stage 4 alone was completed and the user went back to
stage 1. -/
def gapState : State :=
  run initialState [Event.stepComplete 4 trainResult, Event.stepChange 1]

/-- The state after stages 1, 2 and 3 were completed and the user went back to
stage 1. -/
def backAfterSplit : State := handleStepChange afterSplit 1

/-! ## Basic facts about objects and the tables -/

theorem getProp_setProp_same (o : JsObject) (k : String) (v : JsValue) :
    getProp (setProp o k v) k = v := by
  induction o with
  | nil => simp [setProp, getProp]
  | cons p rest ih =>
    obtain ⟨k', v'⟩ := p
    by_cases h : k' = k
    · simp [setProp, getProp, h]
    · simp [setProp, getProp, h, ih]

theorem getProp_setProp_other (o : JsObject) (k k' : String) (v : JsValue)
    (h : k ≠ k') : getProp (setProp o k v) k' = getProp o k' := by
  induction o with
  | nil => simp [setProp, getProp, h]
  | cons p rest ih =>
    obtain ⟨k0, v0⟩ := p
    by_cases h0 : k0 = k
    · subst h0
      simp [setProp, getProp, h]
    · simp [setProp, getProp, h0, ih]

theorem stage_cases {k : Int} (h1 : 1 ≤ k) (h5 : k ≤ 5) :
    k = 1 ∨ k = 2 ∨ k = 3 ∨ k = 4 ∨ k = 5 := by
  omega

theorem steps_length : (steps.length : Int) = 5 := by
  decide

theorem findIndex_steps {k : Int} (h1 : 1 ≤ k) (h5 : k ≤ 5) :
    jsFindIndex (fun st => decide (st.id = k)) steps = k - 1 := by
  rcases stage_cases h1 h5 with rfl | rfl | rfl | rfl | rfl <;> decide

theorem stageKey_injective {i j : Int} (hi1 : 1 ≤ i) (hi5 : i ≤ 5) (hj1 : 1 ≤ j)
    (hj5 : j ≤ 5) (hij : i ≠ j) :
    propertyKey (arrayGet stepKeys (i - 1)) ≠ propertyKey (arrayGet stepKeys (j - 1)) := by
  rcases stage_cases hi1 hi5 with rfl | rfl | rfl | rfl | rfl <;>
    rcases stage_cases hj1 hj5 with rfl | rfl | rfl | rfl | rfl <;>
    first
      | exact absurd rfl hij
      | decide

/-- Forward requests: for a target in 2..5 beyond the current step the handler
reduces to the test of the slot of the preceding stage. -/
theorem handleStepChange_beyond (s : State) (k : Int) (hk2 : 2 ≤ k) (hk5 : k ≤ 5)
    (hak : s.currentStep < k) :
    handleStepChange s k =
      if (stageSlot s (k - 1)).truthy then { s with currentStep := k } else s := by
  have hidx := findIndex_steps (k := k) (by omega) hk5
  have hne : ¬ (k = 1 ∨ k ≤ s.currentStep) := by omega
  have hpos : k - 1 > 0 := by omega
  simp only [handleStepChange, hidx, if_neg hne, if_pos hpos, stageSlot]

/-- Completion writes the slot through `updatePipelineState`. -/
theorem handleStepComplete_pipelineState (s : State) (stepId : Int) (data : JsValue) :
    (handleStepComplete s stepId data).pipelineState =
      setProp s.pipelineState (propertyKey (arrayGet stepKeys (stepId - 1))) data := by
  unfold handleStepComplete updatePipelineState
  split <;> rfl

/-- Completion of a stage before the last sets the current step to its successor. -/
theorem handleStepComplete_currentStep_lt (s : State) (stepId : Int) (data : JsValue)
    (h : stepId < 5) : (handleStepComplete s stepId data).currentStep = stepId + 1 := by
  have h5 : stepId < (steps.length : Int) := by rw [steps_length]; exact h
  simp only [handleStepComplete, if_pos h5]

/-- Completion of a stage numbered 5 or more leaves the current step alone. -/
theorem handleStepComplete_currentStep_ge (s : State) (stepId : Int) (data : JsValue)
    (h : 5 ≤ stepId) : (handleStepComplete s stepId data).currentStep = s.currentStep := by
  have h5 : ¬ stepId < (steps.length : Int) := by rw [steps_length]; omega
  simp only [handleStepComplete, if_neg h5, updatePipelineState]

/-! ## Navigation requests -/

/-- C1: for a target stage k in 2..5 beyond the current step, `handleStepChange`
is accepted exactly when the slot of stage k-1 is non-empty.  With an empty slot
(falsy, in particular `null`) the request fails and the state stays as it was;
with a non-empty slot (truthy, in particular any result object) it succeeds and
the current step becomes k, the slots being kept. -/
theorem handleStepChange_forward_iff (s : State) (k : Int) (hk2 : 2 ≤ k) (hk5 : k ≤ 5)
    (hak : s.currentStep < k) :
    ((handleStepChange s k).currentStep = k ↔ (stageSlot s (k - 1)).truthy = true) ∧
    ((stageSlot s (k - 1)).truthy = false →
      handleStepChange s k = s ∧ (handleStepChange s k).currentStep ≠ k) ∧
    ((stageSlot s (k - 1)).truthy = true →
      handleStepChange s k = { s with currentStep := k }) ∧
    (stageSlot s (k - 1) = JsValue.null → handleStepChange s k = s) ∧
    (∀ fields, stageSlot s (k - 1) = JsValue.object fields →
      handleStepChange s k = { s with currentStep := k }) := by
  have hred := handleStepChange_beyond s k hk2 hk5 hak
  have hne : s.currentStep ≠ k := by omega
  refine ⟨?_, ?_, ?_, ?_, ?_⟩
  · rw [hred]
    cases hslot : (stageSlot s (k - 1)).truthy
    · simp [hne]
    · simp
  · intro hslot
    rw [hred, hslot]
    exact ⟨by simp, by simpa using hne⟩
  · intro hslot
    rw [hred, hslot]
    simp
  · intro hslot
    rw [hred, hslot]
    simp [JsValue.truthy]
  · intro fields hslot
    rw [hred, hslot]
    simp [JsValue.truthy]

/-- Instance of C1: after the upload has completed, stage 2 is accepted and
stage 3 is not. -/
theorem handleStepChange_forward_iff_witness :
    (2 : Int) ≤ 3 ∧ (3 : Int) ≤ 5 ∧ afterUpload.currentStep < 3 ∧
    (((handleStepChange afterUpload 3).currentStep = 3 ↔
        (stageSlot afterUpload (3 - 1)).truthy = true) ∧
      ((stageSlot afterUpload (3 - 1)).truthy = false →
        handleStepChange afterUpload 3 = afterUpload ∧
          (handleStepChange afterUpload 3).currentStep ≠ 3) ∧
      ((stageSlot afterUpload (3 - 1)).truthy = true →
        handleStepChange afterUpload 3 = { afterUpload with currentStep := 3 }) ∧
      (stageSlot afterUpload (3 - 1) = JsValue.null →
        handleStepChange afterUpload 3 = afterUpload) ∧
      (∀ fields, stageSlot afterUpload (3 - 1) = JsValue.object fields →
        handleStepChange afterUpload 3 = { afterUpload with currentStep := 3 })) :=
  ⟨by decide, by decide, by decide,
    handleStepChange_forward_iff afterUpload 3 (by decide) (by decide) (by decide)⟩

/-- C2: a request for stage 1, or for a stage not beyond the current step,
succeeds whatever the slots hold: the current step becomes the target and the
slots are kept.  In particular stage 1 is reachable from every state. -/
theorem handleStepChange_back_or_first (s : State) (t : Int) (_ht1 : 1 ≤ t) (_ht5 : t ≤ 5)
    (h : t = 1 ∨ t ≤ s.currentStep) :
    handleStepChange s t = { s with currentStep := t } ∧
    (handleStepChange s t).currentStep = t ∧
    (handleStepChange s t).pipelineState = s.pipelineState ∧
    (handleStepChange s 1).currentStep = 1 := by
  refine ⟨?_, ?_, ?_, ?_⟩
  · simp only [handleStepChange, if_pos h]
  · simp only [handleStepChange, if_pos h]
  · simp only [handleStepChange, if_pos h]
  · simp [handleStepChange]

/-- Instance of C2: from the state after the split, going back to stage 2. -/
theorem handleStepChange_back_or_first_witness :
    (1 : Int) ≤ 2 ∧ (2 : Int) ≤ 5 ∧ ((2 : Int) = 1 ∨ 2 ≤ afterSplit.currentStep) ∧
    (handleStepChange afterSplit 2 = { afterSplit with currentStep := 2 } ∧
      (handleStepChange afterSplit 2).currentStep = 2 ∧
      (handleStepChange afterSplit 2).pipelineState = afterSplit.pipelineState ∧
      (handleStepChange afterSplit 1).currentStep = 1) :=
  ⟨by decide, by decide, by decide,
    handleStepChange_back_or_first afterSplit 2 (by decide) (by decide) (by decide)⟩

/-- C3: a refused request (target in 1..5 beyond the current step, not stage 1,
slot of the preceding stage empty) changes nothing: the current step and every
slot keep their values. -/
theorem handleStepChange_refused_unchanged (s : State) (t : Int) (ht1 : 1 ≤ t)
    (ht5 : t ≤ 5) (hgt : s.currentStep < t) (hne : t ≠ 1)
    (hslot : (stageSlot s (t - 1)).truthy = false) :
    handleStepChange s t = s ∧
    (handleStepChange s t).currentStep = s.currentStep ∧
    (∀ i : Int, stageSlot (handleStepChange s t) i = stageSlot s i) := by
  have hred := handleStepChange_beyond s t (by omega) ht5 hgt
  have hsame : handleStepChange s t = s := by
    rw [hred, hslot]
    simp
  refine ⟨hsame, ?_, ?_⟩
  · rw [hsame]
  · intro i
    rw [hsame]

/-- Instance of C3: after the upload alone, the request for stage 4 is refused. -/
theorem handleStepChange_refused_unchanged_witness :
    (1 : Int) ≤ 4 ∧ (4 : Int) ≤ 5 ∧ afterUpload.currentStep < 4 ∧ (4 : Int) ≠ 1 ∧
    (stageSlot afterUpload (4 - 1)).truthy = false ∧
    (handleStepChange afterUpload 4 = afterUpload ∧
      (handleStepChange afterUpload 4).currentStep = afterUpload.currentStep ∧
      (∀ i : Int, stageSlot (handleStepChange afterUpload 4) i = stageSlot afterUpload i)) :=
  ⟨by decide, by decide, by decide, by decide, by decide,
    handleStepChange_refused_unchanged afterUpload 4 (by decide) (by decide) (by decide)
      (by decide) (by decide)⟩

/-! ## Completion events -/

/-- C4: completing a stage s with 1 <= s <= current step and s < 5 leaves the
current step at s + 1; completing the current step itself, when it is below 5,
raises the current step by exactly one. -/
theorem handleStepComplete_advances (st : State) (s : Int) (r : JsValue) (_hs1 : 1 ≤ s)
    (_hsa : s ≤ st.currentStep) (hs5 : s < 5) :
    (handleStepComplete st s r).currentStep = s + 1 ∧
    (s = st.currentStep →
      (handleStepComplete st st.currentStep r).currentStep = st.currentStep + 1) := by
  refine ⟨handleStepComplete_currentStep_lt st s r hs5, ?_⟩
  intro heq
  exact handleStepComplete_currentStep_lt st st.currentStep r (heq ▸ hs5)

/-- Instance of C4: completing stage 3 while it is the current step. -/
theorem handleStepComplete_advances_witness :
    (1 : Int) ≤ 3 ∧ (3 : Int) ≤ afterPreprocess.currentStep ∧ (3 : Int) < 5 ∧
    ((handleStepComplete afterPreprocess 3 splitResult).currentStep = 3 + 1 ∧
      ((3 : Int) = afterPreprocess.currentStep →
        (handleStepComplete afterPreprocess afterPreprocess.currentStep splitResult).currentStep
          = afterPreprocess.currentStep + 1)) :=
  ⟨by decide, by decide, by decide,
    handleStepComplete_advances afterPreprocess 3 splitResult (by decide) (by decide)
      (by decide)⟩

/-- C5: when the current step is 5, completing stage 5 leaves the current step
at 5 and stores the result in the `view_results` slot. -/
theorem handleStepComplete_last (st : State) (r : JsValue) (h5 : st.currentStep = 5) :
    (handleStepComplete st 5 r).currentStep = 5 ∧
    getProp (handleStepComplete st 5 r).pipelineState "view_results" = r ∧
    stageSlot (handleStepComplete st 5 r) 5 = r := by
  have hkey : propertyKey (arrayGet stepKeys ((5 : Int) - 1)) = "view_results" := by decide
  refine ⟨?_, ?_, ?_⟩
  · rw [handleStepComplete_currentStep_ge st 5 r (le_refl 5), h5]
  · rw [handleStepComplete_pipelineState, hkey, getProp_setProp_same]
  · unfold stageSlot
    rw [handleStepComplete_pipelineState, getProp_setProp_same]

/-- Instance of C5: completing stage 5 in the state after training. -/
theorem handleStepComplete_last_witness :
    afterTrain.currentStep = 5 ∧
    ((handleStepComplete afterTrain 5 trainResult).currentStep = 5 ∧
      getProp (handleStepComplete afterTrain 5 trainResult).pipelineState "view_results"
        = trainResult ∧
      stageSlot (handleStepComplete afterTrain 5 trainResult) 5 = trainResult) :=
  ⟨by decide, handleStepComplete_last afterTrain trainResult (by decide)⟩

/-- Completion writes the result into the slot of its stage. -/
theorem stageSlot_handleStepComplete_same (st : State) (s : Int) (r : JsValue) :
    stageSlot (handleStepComplete st s r) s = r := by
  unfold stageSlot
  rw [handleStepComplete_pipelineState, getProp_setProp_same]

/-- Completion keeps the slot of every other stage. -/
theorem stageSlot_handleStepComplete_other (st : State) (s i : Int) (r : JsValue)
    (hs1 : 1 ≤ s) (hs5 : s ≤ 5) (hi1 : 1 ≤ i) (hi5 : i ≤ 5) (hne : i ≠ s) :
    stageSlot (handleStepComplete st s r) i = stageSlot st i := by
  unfold stageSlot
  rw [handleStepComplete_pipelineState]
  exact getProp_setProp_other _ _ _ _
    (stageKey_injective hs1 hs5 hi1 hi5 (fun h => hne h.symm))

/-- C6, as stated, fails: in the state reached by completing stages 1, 2 and 3
(current step 4), completing stage 2 again moves the current step back to 3. -/
theorem handleStepComplete_redo_counterexample :
    afterSplit.currentStep = 4 ∧
    (handleStepComplete afterSplit 2 newPreResult).currentStep = 3 ∧
    (handleStepComplete afterSplit 2 newPreResult).currentStep ≠ afterSplit.currentStep ∧
    ¬ (∀ (st : State) (s : Int) (r : JsValue), 1 ≤ s → s < st.currentStep →
        st.currentStep ≤ 5 →
        (handleStepComplete st s r).currentStep = st.currentStep) := by
  refine ⟨by decide, by decide, by decide, ?_⟩
  intro hall
  exact absurd (hall afterSplit 2 newPreResult (by decide) (by decide) (by decide))
    (by decide)

/-- C6, amended: completing an earlier stage s (1 <= s < current step <= 5)
sets slot s to the result, leaves every other slot untouched, and sets the
current step to s + 1; the current step keeps its value exactly when s is the
stage immediately before it. -/
theorem handleStepComplete_redo (st : State) (s : Int) (r : JsValue) (hs1 : 1 ≤ s)
    (hsa : s < st.currentStep) (ha5 : st.currentStep ≤ 5) :
    stageSlot (handleStepComplete st s r) s = r ∧
    (∀ i : Int, 1 ≤ i → i ≤ 5 → i ≠ s →
      stageSlot (handleStepComplete st s r) i = stageSlot st i) ∧
    (handleStepComplete st s r).currentStep = s + 1 ∧
    ((handleStepComplete st s r).currentStep = st.currentStep ↔ s + 1 = st.currentStep) := by
  have hcur := handleStepComplete_currentStep_lt st s r (by omega)
  refine ⟨stageSlot_handleStepComplete_same st s r, ?_, hcur, ?_⟩
  · intro i hi1 hi5 hne
    exact stageSlot_handleStepComplete_other st s i r hs1 (by omega) hi1 hi5 hne
  · rw [hcur]

/-- Instance of amended C6: redoing stage 2 with the current step at 4. -/
theorem handleStepComplete_redo_witness :
    (1 : Int) ≤ 2 ∧ (2 : Int) < afterSplit.currentStep ∧ afterSplit.currentStep ≤ 5 ∧
    (stageSlot (handleStepComplete afterSplit 2 newPreResult) 2 = newPreResult ∧
      (∀ i : Int, 1 ≤ i → i ≤ 5 → i ≠ 2 →
        stageSlot (handleStepComplete afterSplit 2 newPreResult) i = stageSlot afterSplit i) ∧
      (handleStepComplete afterSplit 2 newPreResult).currentStep = 2 + 1 ∧
      ((handleStepComplete afterSplit 2 newPreResult).currentStep = afterSplit.currentStep ↔
        (2 : Int) + 1 = afterSplit.currentStep)) :=
  ⟨by decide, by decide, by decide,
    handleStepComplete_redo afterSplit 2 newPreResult (by decide) (by decide) (by decide)⟩

/-- C7, as stated, fails: the upload has completed, the user has gone back to
stage 1, and the completion of stage 2 then arrives; the current step moves
from 1 to 3. -/
theorem handleStepComplete_late_counterexample :
    backAtUpload.currentStep = 1 ∧
    stageSlot (handleStepComplete backAtUpload 2 preResult) 2 = preResult ∧
    (handleStepComplete backAtUpload 2 preResult).currentStep = 3 ∧
    (handleStepComplete backAtUpload 2 preResult).currentStep ≠ backAtUpload.currentStep ∧
    ¬ (∀ (st : State) (s : Int) (r : JsValue), 1 ≤ st.currentStep → st.currentStep ≤ 5 →
        1 ≤ s → s ≤ 5 → s ≠ st.currentStep →
        (handleStepComplete st s r).currentStep = st.currentStep) := by
  refine ⟨by decide, by decide, by decide, by decide, ?_⟩
  intro hall
  exact absurd
    (hall backAtUpload 2 preResult (by decide) (by decide) (by decide) (by decide)
      (by decide))
    (by decide)

/-- C7, amended: a completion for a stage s in 1..5 other than the current step
writes the result to slot s; it sets the current step to s + 1 when s < 5 and
leaves it alone when s = 5, so the current step keeps its value exactly when
s = 5 or s is the stage immediately before it. -/
theorem handleStepComplete_late (st : State) (s : Int) (r : JsValue) (hs1 : 1 ≤ s)
    (hs5 : s ≤ 5) (_hne : s ≠ st.currentStep) :
    stageSlot (handleStepComplete st s r) s = r ∧
    (s < 5 → (handleStepComplete st s r).currentStep = s + 1) ∧
    (s = 5 → (handleStepComplete st s r).currentStep = st.currentStep) ∧
    ((handleStepComplete st s r).currentStep = st.currentStep ↔
      (s = 5 ∨ s + 1 = st.currentStep)) := by
  refine ⟨stageSlot_handleStepComplete_same st s r, ?_, ?_, ?_⟩
  · intro hlt
    exact handleStepComplete_currentStep_lt st s r hlt
  · intro h5
    exact handleStepComplete_currentStep_ge st s r (by omega)
  · by_cases hlt : s < 5
    · rw [handleStepComplete_currentStep_lt st s r hlt]
      constructor
      · intro h
        exact Or.inr h
      · intro h
        rcases h with h | h
        · omega
        · exact h
    · rw [handleStepComplete_currentStep_ge st s r (by omega)]
      constructor
      · intro _
        exact Or.inl (by omega)
      · intro _
        rfl

/-- Instance of amended C7: the completion of stage 2 arriving at stage 1. -/
theorem handleStepComplete_late_witness :
    (1 : Int) ≤ 2 ∧ (2 : Int) ≤ 5 ∧ (2 : Int) ≠ backAtUpload.currentStep ∧
    (stageSlot (handleStepComplete backAtUpload 2 preResult) 2 = preResult ∧
      ((2 : Int) < 5 → (handleStepComplete backAtUpload 2 preResult).currentStep = 2 + 1) ∧
      ((2 : Int) = 5 →
        (handleStepComplete backAtUpload 2 preResult).currentStep = backAtUpload.currentStep) ∧
      ((handleStepComplete backAtUpload 2 preResult).currentStep = backAtUpload.currentStep ↔
        ((2 : Int) = 5 ∨ (2 : Int) + 1 = backAtUpload.currentStep))) :=
  ⟨by decide, by decide, by decide,
    handleStepComplete_late backAtUpload 2 preResult (by decide) (by decide) (by decide)⟩

/-- C8: after `handleStepComplete` for a stage s in 1..5 the slot of s holds
exactly the new result, whatever it held before, each of the other four slots
holds the value it held before, and `updatePipelineState` by itself never
changes the current step. -/
theorem handleStepComplete_slots (st : State) (s : Int) (r : JsValue) (hs1 : 1 ≤ s)
    (hs5 : s ≤ 5) :
    stageSlot (handleStepComplete st s r) s = r ∧
    (∀ i : Int, 1 ≤ i → i ≤ 5 → i ≠ s →
      stageSlot (handleStepComplete st s r) i = stageSlot st i) ∧
    (∀ (step : Option String) (data : JsValue),
      (updatePipelineState st step data).currentStep = st.currentStep) := by
  refine ⟨stageSlot_handleStepComplete_same st s r, ?_, ?_⟩
  · intro i hi1 hi5 hne
    exact stageSlot_handleStepComplete_other st s i r hs1 hs5 hi1 hi5 hne
  · intro step data
    rfl

/-- Instance of C8: a rerun of stage 2 replaces the earlier result of stage 2. -/
theorem handleStepComplete_slots_witness :
    (1 : Int) ≤ 2 ∧ (2 : Int) ≤ 5 ∧
    (stageSlot (handleStepComplete afterPreprocess 2 newPreResult) 2 = newPreResult ∧
      (∀ i : Int, 1 ≤ i → i ≤ 5 → i ≠ 2 →
        stageSlot (handleStepComplete afterPreprocess 2 newPreResult) i
          = stageSlot afterPreprocess i) ∧
      (∀ (step : Option String) (data : JsValue),
        (updatePipelineState afterPreprocess step data).currentStep
          = afterPreprocess.currentStep)) :=
  ⟨by decide, by decide,
    handleStepComplete_slots afterPreprocess 2 newPreResult (by decide) (by decide)⟩

/-! ## Derived status -/

/-- C9, as stated, fails at s = 5: with the current step at 5, completing stage 5
with a non-empty result leaves stage 5 with status active, not completed. -/
theorem getStepStatus_after_complete_counterexample :
    afterTrain.currentStep = 5 ∧ trainResult.truthy = true ∧
    getStepStatus (handleStepComplete afterTrain 5 trainResult) 5 = StepStatus.active ∧
    getStepStatus (handleStepComplete afterTrain 5 trainResult) 5 ≠ StepStatus.completed ∧
    ¬ (∀ (st : State) (s : Int) (r : JsValue), 1 ≤ st.currentStep → st.currentStep ≤ 5 →
        1 ≤ s → s ≤ 5 → r.truthy = true →
        getStepStatus (handleStepComplete st s r) s = StepStatus.completed) := by
  refine ⟨by decide, by decide, by decide, by decide, ?_⟩
  intro hall
  exact absurd
    (hall afterTrain 5 trainResult (by decide) (by decide) (by decide) (by decide)
      (by decide))
    (by decide)

/-- C9, amended: after `handleStepComplete` for a stage s in 1..5 with a
non-empty result, the status of s is completed, except when s = 5 and the
current step is 5, where it is active. -/
theorem getStepStatus_after_complete (st : State) (s : Int) (r : JsValue) (_hs1 : 1 ≤ s)
    (_hs5 : s ≤ 5) (hr : r.truthy = true) :
    (s < 5 → getStepStatus (handleStepComplete st s r) s = StepStatus.completed) ∧
    (s = 5 → st.currentStep ≠ 5 →
      getStepStatus (handleStepComplete st s r) s = StepStatus.completed) ∧
    (s = 5 → st.currentStep = 5 →
      getStepStatus (handleStepComplete st s r) s = StepStatus.active) := by
  have hslot : (getProp (handleStepComplete st s r).pipelineState
      (propertyKey (arrayGet stepKeys (s - 1)))).truthy = true := by
    have h := stageSlot_handleStepComplete_same st s r
    unfold stageSlot at h
    rw [h]
    exact hr
  refine ⟨?_, ?_, ?_⟩
  · intro hlt
    have hcur := handleStepComplete_currentStep_lt st s r hlt
    have hlt2 : s < (handleStepComplete st s r).currentStep := by omega
    simp only [getStepStatus, if_pos hlt2]
  · intro h5 hne
    have hcur := handleStepComplete_currentStep_ge st s r (by omega)
    by_cases hlt : s < (handleStepComplete st s r).currentStep
    · simp only [getStepStatus, if_pos hlt]
    · have hne2 : ¬ s = (handleStepComplete st s r).currentStep := by omega
      simp only [getStepStatus, if_neg hlt, if_neg hne2, hslot, if_true]
  · intro h5 ha
    have hcur := handleStepComplete_currentStep_ge st s r (by omega)
    have hlt : ¬ s < (handleStepComplete st s r).currentStep := by omega
    have heq : s = (handleStepComplete st s r).currentStep := by omega
    simp only [getStepStatus, if_neg hlt, if_pos heq]

/-- Instance of amended C9: completing stage 3 in the state after preprocessing. -/
theorem getStepStatus_after_complete_witness :
    (1 : Int) ≤ 3 ∧ (3 : Int) ≤ 5 ∧ splitResult.truthy = true ∧
    (((3 : Int) < 5 →
        getStepStatus (handleStepComplete afterPreprocess 3 splitResult) 3
          = StepStatus.completed) ∧
      ((3 : Int) = 5 → afterPreprocess.currentStep ≠ 5 →
        getStepStatus (handleStepComplete afterPreprocess 3 splitResult) 3
          = StepStatus.completed) ∧
      ((3 : Int) = 5 → afterPreprocess.currentStep = 5 →
        getStepStatus (handleStepComplete afterPreprocess 3 splitResult) 3
          = StepStatus.active)) :=
  ⟨by decide, by decide, by decide,
    getStepStatus_after_complete afterPreprocess 3 splitResult (by decide) (by decide)
      (by decide)⟩

/-- C10: in a state with current step in 1..5 and for a stage s in 1..5,
`getStepStatus` agrees with the status rule of the specification: completed when
s is before the current step, active when s is the current step, and beyond the
current step completed or pending as the slot of s is non-empty or empty.  It
depends on the state only through the current step and the slot of s, and
exactly one stage in 1..5 is active. -/
theorem getStepStatus_spec (st : State) (s : Int) (ha1 : 1 ≤ st.currentStep)
    (ha5 : st.currentStep ≤ 5) (_hs1 : 1 ≤ s) (_hs5 : s ≤ 5) :
    getStepStatus st s = statusOf st s ∧
    (s < st.currentStep → getStepStatus st s = StepStatus.completed) ∧
    (s = st.currentStep → getStepStatus st s = StepStatus.active) ∧
    (st.currentStep < s → (stageSlot st s).truthy = true →
      getStepStatus st s = StepStatus.completed) ∧
    (st.currentStep < s → (stageSlot st s).truthy = false →
      getStepStatus st s = StepStatus.pending) ∧
    (∀ st2 : State, st2.currentStep = st.currentStep → stageSlot st2 s = stageSlot st s →
      getStepStatus st2 s = getStepStatus st s) ∧
    (∃! i : Int, 1 ≤ i ∧ i ≤ 5 ∧ getStepStatus st i = StepStatus.active) := by
  refine ⟨?_, ?_, ?_, ?_, ?_, ?_, ?_⟩
  · unfold getStepStatus statusOf stageSlot
    by_cases hlt : s < st.currentStep
    · have hne : ¬ s = st.currentStep := by omega
      simp only [if_pos hlt, if_neg hne]
    · simp only [if_neg hlt]
  · intro hlt
    simp only [getStepStatus, if_pos hlt]
  · intro heq
    have hlt : ¬ s < st.currentStep := by omega
    simp only [getStepStatus, if_neg hlt, if_pos heq]
  · intro hgt hslot
    have hlt : ¬ s < st.currentStep := by omega
    have hne : ¬ s = st.currentStep := by omega
    unfold stageSlot at hslot
    simp only [getStepStatus, if_neg hlt, if_neg hne, hslot, if_true]
  · intro hgt hslot
    have hlt : ¬ s < st.currentStep := by omega
    have hne : ¬ s = st.currentStep := by omega
    unfold stageSlot at hslot
    simp [getStepStatus, hlt, hne, hslot]
  · intro st2 hcur hslot
    unfold stageSlot at hslot
    simp only [getStepStatus, hcur, hslot]
  · refine ⟨st.currentStep, ⟨ha1, ha5, ?_⟩, ?_⟩
    · simp [getStepStatus]
    · rintro i ⟨_, _, hact⟩
      by_contra hne
      unfold getStepStatus at hact
      by_cases hlt : i < st.currentStep
      · simp [hlt] at hact
      · simp only [if_neg hlt, if_neg hne] at hact
        split at hact <;> simp at hact

/-- Instance of C10: stage 3 seen from stage 1 once stages 1 to 3 are completed. -/
theorem getStepStatus_spec_witness :
    (1 : Int) ≤ (handleStepChange afterSplit 1).currentStep ∧
    (handleStepChange afterSplit 1).currentStep ≤ 5 ∧ (1 : Int) ≤ 3 ∧ (3 : Int) ≤ 5 ∧
    getStepStatus (handleStepChange afterSplit 1) 3 = StepStatus.completed ∧
    getStepStatus (handleStepChange afterSplit 1) 5 = StepStatus.pending ∧
    getStepStatus (handleStepChange afterSplit 1) 3
      = statusOf (handleStepChange afterSplit 1) 3 :=
  ⟨by decide, by decide, by decide, by decide, by decide, by decide,
    (getStepStatus_spec (handleStepChange afterSplit 1) 3 (by decide) (by decide)
      (by decide) (by decide)).1⟩

/-! ## The scenario of the specification -/

/-- The slots of the initial state are all `null`. -/
theorem stageSlot_initialState {i : Int} (h1 : 1 ≤ i) (h5 : i ≤ 5) :
    stageSlot initialState i = JsValue.null := by
  rcases stage_cases h1 h5 with rfl | rfl | rfl | rfl | rfl <;> decide

/-- A navigation request never writes a slot. -/
theorem handleStepChange_pipelineState (s : State) (t : Int) :
    (handleStepChange s t).pipelineState = s.pipelineState := by
  unfold handleStepChange
  simp only []
  split
  · rfl
  · split
    · split <;> rfl
    · rfl

/-- A navigation request keeps every slot. -/
theorem stageSlot_handleStepChange (s : State) (t i : Int) :
    stageSlot (handleStepChange s t) i = stageSlot s i := by
  unfold stageSlot
  rw [handleStepChange_pipelineState]

/-- C11: the scenario of the specification, run from the initial state with
three non-empty results: completing stage 1 gives current step 2; the request
for stage 4 is refused and the current step stays 2; completing stage 2 gives 3;
completing stage 3 gives 4; the request for stage 1 succeeds and gives 1, the
status of stage 3 still being completed and its slot still holding the third
result; the request for stage 4 from stage 1 then succeeds and gives 4. -/
theorem scenario_fresh_run (r1 r2 r3 : JsValue) (_h1 : r1.truthy = true)
    (_h2 : r2.truthy = true) (h3 : r3.truthy = true) :
    (handleStepComplete initialState 1 r1).currentStep = 2 ∧
    handleStepChange (handleStepComplete initialState 1 r1) 4
      = handleStepComplete initialState 1 r1 ∧
    (handleStepChange (handleStepComplete initialState 1 r1) 4).currentStep = 2 ∧
    (handleStepComplete (handleStepChange (handleStepComplete initialState 1 r1) 4) 2
      r2).currentStep = 3 ∧
    (handleStepComplete (handleStepComplete (handleStepChange
      (handleStepComplete initialState 1 r1) 4) 2 r2) 3 r3).currentStep = 4 ∧
    (handleStepChange (handleStepComplete (handleStepComplete (handleStepChange
      (handleStepComplete initialState 1 r1) 4) 2 r2) 3 r3) 1).currentStep = 1 ∧
    getStepStatus (handleStepChange (handleStepComplete (handleStepComplete
      (handleStepChange (handleStepComplete initialState 1 r1) 4) 2 r2) 3 r3) 1) 3
      = StepStatus.completed ∧
    stageSlot (handleStepChange (handleStepComplete (handleStepComplete
      (handleStepChange (handleStepComplete initialState 1 r1) 4) 2 r2) 3 r3) 1) 3 = r3 ∧
    (handleStepChange (handleStepChange (handleStepComplete (handleStepComplete
      (handleStepChange (handleStepComplete initialState 1 r1) 4) 2 r2) 3 r3) 1)
      4).currentStep = 4 := by
  -- after the upload
  have e1 : (handleStepComplete initialState 1 r1).currentStep = 2 :=
    handleStepComplete_currentStep_lt initialState 1 r1 (by decide)
  have slot3 : stageSlot (handleStepComplete initialState 1 r1) (4 - 1) = JsValue.null := by
    rw [show ((4 : Int) - 1) = 3 from rfl,
      stageSlot_handleStepComplete_other initialState 1 3 r1 (by decide) (by decide)
        (by decide) (by decide) (by decide)]
    exact stageSlot_initialState (by decide) (by decide)
  -- the refused request
  have e2 : handleStepChange (handleStepComplete initialState 1 r1) 4
      = handleStepComplete initialState 1 r1 := by
    rw [handleStepChange_beyond _ 4 (by decide) (by decide) (by rw [e1]; decide), slot3]
    simp [JsValue.truthy]
  rw [e2]
  -- the two further completions
  have e3 : (handleStepComplete (handleStepComplete initialState 1 r1) 2 r2).currentStep = 3 :=
    handleStepComplete_currentStep_lt _ 2 r2 (by decide)
  have e4 : (handleStepComplete (handleStepComplete (handleStepComplete initialState 1 r1)
      2 r2) 3 r3).currentStep = 4 :=
    handleStepComplete_currentStep_lt _ 3 r3 (by decide)
  -- going back to stage 1
  have e5 : (handleStepChange (handleStepComplete (handleStepComplete
      (handleStepComplete initialState 1 r1) 2 r2) 3 r3) 1).currentStep = 1 := by
    simp [handleStepChange]
  have e6 : stageSlot (handleStepChange (handleStepComplete (handleStepComplete
      (handleStepComplete initialState 1 r1) 2 r2) 3 r3) 1) 3 = r3 := by
    rw [stageSlot_handleStepChange, stageSlot_handleStepComplete_same]
  have e7 : getStepStatus (handleStepChange (handleStepComplete (handleStepComplete
      (handleStepComplete initialState 1 r1) 2 r2) 3 r3) 1) 3 = StepStatus.completed := by
    have hslot := e6
    unfold stageSlot at hslot
    have hlt : ¬ (3 : Int) < (handleStepChange (handleStepComplete (handleStepComplete
        (handleStepComplete initialState 1 r1) 2 r2) 3 r3) 1).currentStep := by
      rw [e5]; decide
    have hne : ¬ (3 : Int) = (handleStepChange (handleStepComplete (handleStepComplete
        (handleStepComplete initialState 1 r1) 2 r2) 3 r3) 1).currentStep := by
      rw [e5]; decide
    simp only [getStepStatus, if_neg hlt, if_neg hne, hslot, h3, if_true]
  -- forward again to stage 4
  have e8 : (handleStepChange (handleStepChange (handleStepComplete (handleStepComplete
      (handleStepComplete initialState 1 r1) 2 r2) 3 r3) 1) 4).currentStep = 4 := by
    rw [handleStepChange_beyond _ 4 (by decide) (by decide) (by rw [e5]; decide),
      show ((4 : Int) - 1) = 3 from rfl, e6, h3]
    simp
  exact ⟨e1, rfl, e1, e3, e4, e5, e7, e6, e8⟩

/-- Instance of C11: the scenario with the sample results of the first three
stages. -/
theorem scenario_fresh_run_witness :
    uploadResult.truthy = true ∧ preResult.truthy = true ∧ splitResult.truthy = true ∧
    ((handleStepComplete initialState 1 uploadResult).currentStep = 2 ∧
      handleStepChange (handleStepComplete initialState 1 uploadResult) 4
        = handleStepComplete initialState 1 uploadResult ∧
      (handleStepChange (handleStepComplete initialState 1 uploadResult) 4).currentStep = 2 ∧
      (handleStepComplete
        (handleStepChange (handleStepComplete initialState 1 uploadResult) 4) 2
        preResult).currentStep = 3 ∧
      (handleStepComplete (handleStepComplete
        (handleStepChange (handleStepComplete initialState 1 uploadResult) 4) 2
        preResult) 3 splitResult).currentStep = 4 ∧
      (handleStepChange (handleStepComplete (handleStepComplete
        (handleStepChange (handleStepComplete initialState 1 uploadResult) 4) 2
        preResult) 3 splitResult) 1).currentStep = 1 ∧
      getStepStatus (handleStepChange (handleStepComplete (handleStepComplete
        (handleStepChange (handleStepComplete initialState 1 uploadResult) 4) 2
        preResult) 3 splitResult) 1) 3 = StepStatus.completed ∧
      stageSlot (handleStepChange (handleStepComplete (handleStepComplete
        (handleStepChange (handleStepComplete initialState 1 uploadResult) 4) 2
        preResult) 3 splitResult) 1) 3 = splitResult ∧
      (handleStepChange (handleStepChange (handleStepComplete (handleStepComplete
        (handleStepChange (handleStepComplete initialState 1 uploadResult) 4) 2
        preResult) 3 splitResult) 1) 4).currentStep = 4) :=
  ⟨by decide, by decide, by decide,
    scenario_fresh_run uploadResult preResult splitResult (by decide) (by decide)
      (by decide)⟩

/-! ## The stage views -/

/-- A non-empty string is truthy. -/
theorem truthy_string (s : String) (h : s ≠ "") : (JsValue.string s).truthy = true := by
  simp [JsValue.truthy, h]

/-- The empty string is falsy. -/
theorem truthy_string_empty : (JsValue.string "").truthy = false := by
  decide

/-- A boolean is its own truth value. -/
theorem truthy_boolean (b : Bool) : (JsValue.boolean b).truthy = b := by
  rfl

/-- The message set on failure is never empty: the fallback text is not. -/
theorem jsOr_truthy (a : JsValue) (fallback : String) (h : fallback ≠ "") :
    (jsOr a (JsValue.string fallback)).truthy = true := by
  unfold jsOr
  by_cases ha : a.truthy = true
  · simp [ha]
  · simp [ha, truthy_string fallback h]

/-- C12: each of the four stage views (upload, preprocess, split, train), once
its service call is made, invokes `onComplete` if and only if the call returned
an envelope whose `success` is true; on an envelope with `success` false and on
a rejected call it does not invoke `onComplete`, sets an error message, and
leaves the current step and the slots as they were.  A handler that returns
before the service call does not invoke `onComplete` either. -/
theorem stage_views_contract (acceptedFilesLength : Nat)
    (targetColumn preprocessingType selectedModel : String) (stepId : Int) :
    (acceptedFilesLength ≠ 0 → ViewContract (onDrop acceptedFilesLength) 1) ∧
    (targetColumn ≠ "" → preprocessingType ≠ "" →
      ViewContract (handlePreprocess targetColumn preprocessingType stepId) stepId) ∧
    ViewContract (handleSplit stepId) stepId ∧
    (selectedModel ≠ "" → ViewContract (handleTrain selectedModel stepId) stepId) ∧
    (∀ outcome, invokesOnComplete (onDrop 0 outcome) = false) ∧
    (∀ outcome, (targetColumn = "" ∨ preprocessingType = "") →
      invokesOnComplete (handlePreprocess targetColumn preprocessingType stepId outcome)
        = false) ∧
    (∀ outcome, invokesOnComplete (handleTrain "" stepId outcome) = false) ∧
    (∀ (data : JsObject) (b : Bool), getProp data "success" = JsValue.boolean b →
      (succeeded (CallOutcome.resolved data) = true ↔ b = true)) ∧
    (∀ serverError, succeeded (CallOutcome.rejected serverError) = false) := by
  refine ⟨?_, ?_, ?_, ?_, ?_, ?_, ?_, ?_, ?_⟩
  · intro hn outcome
    cases outcome with
    | resolved data =>
      by_cases hs : (getProp data "success").truthy = true
      · simp [onDrop, hn, hs, succeeded, invokesOnComplete, setsErrorMessage, applyEffects,
          applyEffect]
      · simp [onDrop, hn, hs, succeeded, invokesOnComplete, setsErrorMessage, applyEffects,
          applyEffect, jsOr_truthy]
    | rejected serverError =>
      simp [onDrop, hn, succeeded, invokesOnComplete, setsErrorMessage, applyEffects,
        applyEffect, jsOr_truthy]
  · intro ht hp outcome
    cases outcome with
    | resolved data =>
      by_cases hs : (getProp data "success").truthy = true
      · simp [handlePreprocess, ht, hp, hs, succeeded, invokesOnComplete, setsErrorMessage,
          applyEffects, applyEffect, truthy_string]
      · simp [handlePreprocess, ht, hp, hs, succeeded, invokesOnComplete, setsErrorMessage,
          applyEffects, applyEffect, jsOr_truthy, truthy_string]
    | rejected serverError =>
      simp [handlePreprocess, ht, hp, succeeded, invokesOnComplete, setsErrorMessage,
        applyEffects, applyEffect, jsOr_truthy, truthy_string]
  · intro outcome
    cases outcome with
    | resolved data =>
      by_cases hs : (getProp data "success").truthy = true
      · simp [handleSplit, hs, succeeded, invokesOnComplete, setsErrorMessage, applyEffects,
          applyEffect]
      · simp [handleSplit, hs, succeeded, invokesOnComplete, setsErrorMessage, applyEffects,
          applyEffect, jsOr_truthy]
    | rejected serverError =>
      simp [handleSplit, succeeded, invokesOnComplete, setsErrorMessage, applyEffects,
        applyEffect, jsOr_truthy]
  · intro hm outcome
    cases outcome with
    | resolved data =>
      by_cases hs : (getProp data "success").truthy = true
      · simp [handleTrain, hm, hs, succeeded, invokesOnComplete, setsErrorMessage,
          applyEffects, applyEffect, truthy_string]
      · simp [handleTrain, hm, hs, succeeded, invokesOnComplete, setsErrorMessage,
          applyEffects, applyEffect, jsOr_truthy, truthy_string]
    | rejected serverError =>
      simp [handleTrain, hm, succeeded, invokesOnComplete, setsErrorMessage, applyEffects,
        applyEffect, jsOr_truthy, truthy_string]
  · intro outcome
    simp [onDrop, invokesOnComplete]
  · intro outcome h
    rcases h with h | h
    · simp [handlePreprocess, h, invokesOnComplete, truthy_string, truthy_string_empty]
    · by_cases ht : targetColumn = ""
      · simp [handlePreprocess, ht, invokesOnComplete, truthy_string, truthy_string_empty]
      · simp [handlePreprocess, h, ht, invokesOnComplete, truthy_string, truthy_string_empty]
  · intro outcome
    simp [handleTrain, invokesOnComplete, truthy_string, truthy_string_empty]
  · intro data b hb
    simp [succeeded, hb, truthy_boolean]
  · intro serverError
    rfl

/-! ## Reset -/

/-- C13, as stated, fails for a rejected post: with the results view mounted
after a full run (current step 5, four slots filled), `handleReset` only logs the
error, no reload is requested, and the state stays as it was, so the initial
state is not restored for every outcome of the reset action. -/
theorem handleReset_rejected_counterexample :
    resultsShown.currentStep = 5 ∧
    CurrentStepComponent resultsShown = some Component.StepResults ∧
    handleReset false = [ResetEffect.consoleError] ∧
    afterReset resultsShown false = resultsShown ∧
    (afterReset resultsShown false).currentStep = 5 ∧
    (stageSlot (afterReset resultsShown false) 1).truthy = true ∧
    afterReset resultsShown false ≠ initialState ∧
    ¬ (∀ (s : State) (postResolved : Bool), afterReset s postResolved = initialState) := by
  refine ⟨by decide, by decide, by decide, by decide, by decide, by decide, by decide, ?_⟩
  intro hall
  exact absurd (hall resultsShown false) (by decide)

/-- C13, amended: `handleReset` restores the initial state through a page
reload and only when the post resolves.  When it resolves, the single call is
`window.location.reload()`, after which `PipelineBuilder` is in its exact initial
state: current step 1 and the five slots `upload_dataset`, `preprocess`,
`split_data`, `select_model`, `view_results` empty.  When it is rejected, the
single call is `console.error` and the current step and all slots keep their
values.  For every prior state and every outcome the resulting state is the
initial state or the prior state, never one in which one of the two cells is
reset and the other is not. -/
theorem handleReset_all_or_nothing (s : State) :
    handleReset true = [ResetEffect.locationReload] ∧
    handleReset false = [ResetEffect.consoleError] ∧
    afterReset s true = initialState ∧
    (afterReset s true).currentStep = 1 ∧
    getProp (afterReset s true).pipelineState "upload_dataset" = JsValue.null ∧
    getProp (afterReset s true).pipelineState "preprocess" = JsValue.null ∧
    getProp (afterReset s true).pipelineState "split_data" = JsValue.null ∧
    getProp (afterReset s true).pipelineState "select_model" = JsValue.null ∧
    getProp (afterReset s true).pipelineState "view_results" = JsValue.null ∧
    (∀ i : Int, 1 ≤ i → i ≤ 5 → (stageSlot (afterReset s true) i).truthy = false) ∧
    afterReset s false = s ∧
    (∀ postResolved : Bool,
      afterReset s postResolved = initialState ∨ afterReset s postResolved = s) ∧
    (∀ postResolved : Bool,
      ((afterReset s postResolved).currentStep = initialState.currentStep ∧
        (afterReset s postResolved).pipelineState = initialState.pipelineState) ∨
      ((afterReset s postResolved).currentStep = s.currentStep ∧
        (afterReset s postResolved).pipelineState = s.pipelineState)) := by
  have hreset : afterReset s true = initialState := rfl
  have hkept : afterReset s false = s := rfl
  refine ⟨rfl, rfl, hreset, ?_, ?_, ?_, ?_, ?_, ?_, ?_, hkept, ?_, ?_⟩
  · rw [hreset]; rfl
  · rw [hreset]; decide
  · rw [hreset]; decide
  · rw [hreset]; decide
  · rw [hreset]; decide
  · rw [hreset]; decide
  · intro i h1 h5
    rw [hreset, stageSlot_initialState h1 h5]
    rfl
  · intro postResolved
    cases postResolved
    · exact Or.inr hkept
    · exact Or.inl hreset
  · intro postResolved
    cases postResolved
    · exact Or.inr ⟨by rw [hkept], by rw [hkept]⟩
    · exact Or.inl ⟨by rw [hreset], by rw [hreset]⟩

/-- C16, as stated, fails: in the initial state the mounted view is the upload
view, which renders no reset control, whatever the results view would render. -/
theorem offersReset_counterexample :
    initialState.currentStep = 1 ∧
    CurrentStepComponent initialState = some Component.StepUpload ∧
    (∀ bodyCompletes : JsValue → Bool, offersReset bodyCompletes initialState = false) ∧
    ¬ (∀ (bodyCompletes : JsValue → Bool) (st : State), 1 ≤ st.currentStep →
        st.currentStep ≤ 5 → offersReset bodyCompletes st = true) := by
  refine ⟨by decide, by decide, fun _ => rfl, ?_⟩
  intro hall
  have h := hall (fun _ => true) initialState (by decide) (by decide)
  exact absurd h (by decide)

/-- C16, amended: in a state with current step in 1..5 the mounted view offers
the reset control exactly when the current step is 5, the `select_model` slot is
non-empty and has a `predictions_count`, and the rest of the results render
completes; with the current step in 1..4, with an empty `select_model` slot, or
with a `select_model` without `predictions_count`, no reset control is offered. -/
theorem offersReset_iff (bodyCompletes : JsValue → Bool) (st : State)
    (ha1 : 1 ≤ st.currentStep) (ha5 : st.currentStep ≤ 5) :
    (offersReset bodyCompletes st = true ↔
      (st.currentStep = 5 ∧ (getProp st.pipelineState "select_model").truthy = true ∧
        (getProp st.pipelineState "select_model").hasField "predictions_count" = true ∧
        bodyCompletes (getProp st.pipelineState "select_model") = true)) ∧
    (st.currentStep ≤ 4 → offersReset bodyCompletes st = false) ∧
    ((getProp st.pipelineState "select_model").truthy = false →
      offersReset bodyCompletes st = false) ∧
    ((getProp st.pipelineState "select_model").hasField "predictions_count" = false →
      offersReset bodyCompletes st = false) := by
  obtain ⟨a, ps⟩ := st
  simp only at ha1 ha5
  rcases stage_cases ha1 ha5 with rfl | rfl | rfl | rfl | rfl
  · simp [offersReset, CurrentStepComponent, arrayGet, steps, rendersResetButton]
  · simp [offersReset, CurrentStepComponent, arrayGet, steps, rendersResetButton]
  · simp [offersReset, CurrentStepComponent, arrayGet, steps, rendersResetButton]
  · simp [offersReset, CurrentStepComponent, arrayGet, steps, rendersResetButton]
  · cases htruthy : (getProp ps "select_model").truthy <;>
      cases hfield : (getProp ps "select_model").hasField "predictions_count" <;>
      simp [offersReset, CurrentStepComponent, arrayGet, steps, rendersResetButton,
        htruthy, hfield]

/-- Instance of amended C16: in the state after training the `select_model` slot
has no `predictions_count`, and the results view offers no reset control. -/
theorem offersReset_iff_witness :
    (1 : Int) ≤ afterTrain.currentStep ∧ afterTrain.currentStep ≤ 5 ∧
    afterTrain.currentStep = 5 ∧
    (getProp afterTrain.pipelineState "select_model").truthy = true ∧
    (getProp afterTrain.pipelineState "select_model").hasField "predictions_count" = false ∧
    offersReset (fun _ => true) afterTrain = false :=
  ⟨by decide, by decide, by decide, by decide, by decide,
    (offersReset_iff (fun _ => true) afterTrain (by decide) (by decide)).2.2.2
      (by decide)⟩

/-! ## The invariant of the wizard -/

/-- The flow element at position `index` is the stage `index + 1`. -/
theorem steps_get_id {index : Nat} {step : Step} (h : steps.get? index = some step) :
    step.id = (index : Int) + 1 ∧ index < 5 := by
  match index, h with
  | 0, h => simp [steps] at h; subst h; exact ⟨rfl, by decide⟩
  | 1, h => simp [steps] at h; subst h; exact ⟨rfl, by decide⟩
  | 2, h => simp [steps] at h; subst h; exact ⟨rfl, by decide⟩
  | 3, h => simp [steps] at h; subst h; exact ⟨rfl, by decide⟩
  | 4, h => simp [steps] at h; subst h; exact ⟨rfl, by decide⟩
  | n + 5, h => simp [steps] at h

/-- The two parts of the stage test. -/
theorem isStage_iff (k : Int) : isStage k = true ↔ 1 ≤ k ∧ k ≤ 5 := by
  simp [isStage]

/-- The outcome of a navigation request for a stage: accepted on one of the
three grounds of the handler, or refused with the state kept. -/
theorem handleStepChange_cases (s : State) (t : Int) (ht1 : 1 ≤ t) (ht5 : t ≤ 5) :
    ((handleStepChange s t).currentStep = t ∧
      (t = 1 ∨ t ≤ s.currentStep ∨ (2 ≤ t ∧ (stageSlot s (t - 1)).truthy = true))) ∨
    handleStepChange s t = s := by
  by_cases hback : t = 1 ∨ t ≤ s.currentStep
  · left
    refine ⟨by simp only [handleStepChange, if_pos hback], ?_⟩
    rcases hback with h | h
    · exact Or.inl h
    · exact Or.inr (Or.inl h)
  · have h2 : 2 ≤ t := by omega
    have hgt : s.currentStep < t := by omega
    rw [handleStepChange_beyond s t h2 ht5 hgt]
    cases hslot : (stageSlot s (t - 1)).truthy
    · right
      simp
    · left
      exact ⟨by simp, Or.inr (Or.inr ⟨h2, rfl⟩)⟩

theorem filledInOrder_initialState : FilledInOrder initialState := by
  refine ⟨0, le_refl 0, by decide, ?_, by decide, by decide, by decide⟩
  intro i h1 h5
  rw [stageSlot_initialState h1 h5]
  constructor
  · intro h
    exact absurd h (by decide)
  · intro h
    omega

theorem filledInOrder_handleStepChange (s : State) (t : Int) (h : FilledInOrder s)
    (ht1 : 1 ≤ t) (ht5 : t ≤ 5) : FilledInOrder (handleStepChange s t) := by
  obtain ⟨m, hm0, hm5, hslots, ha1, ha5, ham⟩ := h
  rcases handleStepChange_cases s t ht1 ht5 with ⟨hcur, hwhy⟩ | hsame
  · refine ⟨m, hm0, hm5, ?_, ?_, ?_, ?_⟩
    · intro i hi1 hi5
      rw [stageSlot_handleStepChange]
      exact hslots i hi1 hi5
    · rw [hcur]; exact ht1
    · rw [hcur]; exact ht5
    · rw [hcur]
      rcases hwhy with h1 | hle | ⟨h2, hslot⟩
      · omega
      · omega
      · have := (hslots (t - 1) (by omega) (by omega)).mp hslot
        omega
  · rw [hsame]
    exact ⟨m, hm0, hm5, hslots, ha1, ha5, ham⟩

theorem filledInOrder_handleStepComplete (s : State) (k : Int) (r : JsValue)
    (h : FilledInOrder s) (hk1 : 1 ≤ k) (hk5 : k ≤ 5) (hr : r.truthy = true)
    (hpre : k = 1 ∨ (stageSlot s (k - 1)).truthy = true) :
    FilledInOrder (handleStepComplete s k r) := by
  obtain ⟨m, hm0, hm5, hslots, ha1, ha5, ham⟩ := h
  have hkm : k ≤ m + 1 := by
    rcases hpre with h1 | hslot
    · omega
    · by_cases hk : k = 1
      · omega
      · have := (hslots (k - 1) (by omega) (by omega)).mp hslot
        omega
  have hcur : (k < 5 ∧ (handleStepComplete s k r).currentStep = k + 1) ∨
      (k = 5 ∧ (handleStepComplete s k r).currentStep = s.currentStep) := by
    by_cases hlt : k < 5
    · exact Or.inl ⟨hlt, handleStepComplete_currentStep_lt s k r hlt⟩
    · exact Or.inr ⟨by omega, handleStepComplete_currentStep_ge s k r (by omega)⟩
  refine ⟨max m k, by omega, by omega, ?_, ?_, ?_, ?_⟩
  · intro i hi1 hi5
    by_cases hik : i = k
    · subst hik
      rw [stageSlot_handleStepComplete_same, hr]
      simp
    · rw [stageSlot_handleStepComplete_other s k i r hk1 hk5 hi1 hi5 hik]
      rw [hslots i hi1 hi5]
      constructor
      · intro hle
        omega
      · intro hle
        rcases le_max_iff.mp hle with h1 | h1
        · exact h1
        · omega
  · rcases hcur with ⟨_, h1⟩ | ⟨_, h1⟩ <;> omega
  · rcases hcur with ⟨_, h1⟩ | ⟨_, h1⟩ <;> omega
  · rcases hcur with ⟨_, h1⟩ | ⟨_, h1⟩ <;> omega

/-- An invariant kept by every guarded event holds along every valid trace. -/
theorem filledInOrder_run (guard : State → Event → Bool)
    (hstep : ∀ s e, FilledInOrder s → guard s e = true → FilledInOrder (applyEvent s e)) :
    ∀ (events : List Event) (s : State), FilledInOrder s →
      validTrace guard s events = true → FilledInOrder (run s events) := by
  intro events
  induction events with
  | nil =>
    intro s hs _
    exact hs
  | cons e rest ih =>
    intro s hs hvalid
    simp only [validTrace, Bool.and_eq_true] at hvalid
    exact ih (applyEvent s e) (hstep s e hs hvalid.1) hvalid.2

theorem filledInOrder_orderedCall (s : State) (e : Event) (hs : FilledInOrder s)
    (hg : orderedCall s e = true) : FilledInOrder (applyEvent s e) := by
  cases e with
  | stepChange t =>
    have ht := (isStage_iff t).mp hg
    exact filledInOrder_handleStepChange s t hs ht.1 ht.2
  | stepComplete k r =>
    simp only [orderedCall, Bool.and_eq_true, Bool.or_eq_true, decide_eq_true_eq] at hg
    obtain ⟨⟨hk, hr⟩, hpre⟩ := hg
    have hk2 := (isStage_iff k).mp hk
    exact filledInOrder_handleStepComplete s k r hs hk2.1 hk2.2 hr hpre
  | click index =>
    exact absurd hg (by simp [orderedCall])

theorem filledInOrder_mountedComplete (s : State) (k : Int) (r : JsValue)
    (hs : FilledInOrder s) (hk : k = s.currentStep) (hr : r.truthy = true) :
    FilledInOrder (handleStepComplete s k r) := by
  obtain ⟨m, hm0, hm5, hslots, ha1, ha5, ham⟩ := hs
  have hpre : k = 1 ∨ (stageSlot s (k - 1)).truthy = true := by
    by_cases h1 : k = 1
    · exact Or.inl h1
    · exact Or.inr ((hslots (k - 1) (by omega) (by omega)).mpr (by omega))
  exact filledInOrder_handleStepComplete s k r ⟨m, hm0, hm5, hslots, ha1, ha5, ham⟩
    (by omega) (by omega) hr hpre

theorem filledInOrder_mountedCall (s : State) (e : Event) (hs : FilledInOrder s)
    (hg : mountedCall s e = true) : FilledInOrder (applyEvent s e) := by
  cases e with
  | stepChange t =>
    have ht := (isStage_iff t).mp hg
    exact filledInOrder_handleStepChange s t hs ht.1 ht.2
  | stepComplete k r =>
    simp only [mountedCall, Bool.and_eq_true, decide_eq_true_eq] at hg
    exact filledInOrder_mountedComplete s k r hs hg.1 hg.2
  | click index =>
    exact absurd hg (by simp [mountedCall])

theorem filledInOrder_flowCall (s : State) (e : Event) (hs : FilledInOrder s)
    (hg : flowCall s e = true) : FilledInOrder (applyEvent s e) := by
  cases e with
  | stepChange t =>
    exact absurd hg (by simp [flowCall])
  | stepComplete k r =>
    simp only [flowCall, Bool.and_eq_true, decide_eq_true_eq] at hg
    exact filledInOrder_mountedComplete s k r hs hg.1 hg.2
  | click index =>
    cases hstep : steps.get? index with
    | none =>
      simp only [applyEvent, flowClick, hstep]
      exact hs
    | some step =>
      have hid := steps_get_id hstep
      simp only [flowCall, hstep] at hg
      simp only [applyEvent, flowClick, hstep, onClick, hg, if_true]
      exact filledInOrder_handleStepChange s step.id hs (by omega) (by omega)

/-! ## Forward navigation and the first incomplete stage -/

/-- C14, as stated, fails: the two calls `handleStepComplete(4, r)` and
`handleStepChange(1)` from the initial state give a state with current step 1
whose first empty slot is that of stage 1, and there the request for stage 5,
beyond both, is accepted because the slot of stage 4 is non-empty. -/
theorem forward_beyond_first_incomplete_counterexample :
    validTrace anyCall initialState
      [Event.stepComplete 4 trainResult, Event.stepChange 1] = true ∧
    gapState.currentStep = 1 ∧
    (stageSlot gapState 1).truthy = false ∧
    (stageSlot gapState 4).truthy = true ∧
    (handleStepChange gapState 5).currentStep = 5 ∧
    handleStepChange gapState 5 ≠ gapState ∧
    ¬ (∀ (events : List Event) (f t : Int),
        validTrace anyCall initialState events = true →
        1 ≤ f → f ≤ 5 → (stageSlot (run initialState events) f).truthy = false →
        (∀ j : Int, 1 ≤ j → j < f → (stageSlot (run initialState events) j).truthy = true) →
        t ≤ 5 → (run initialState events).currentStep < t → f < t →
        handleStepChange (run initialState events) t = run initialState events) := by
  refine ⟨by decide, by decide, by decide, by decide, by decide, by decide, ?_⟩
  intro hall
  have h := hall [Event.stepComplete 4 trainResult, Event.stepChange 1] 1 5 (by decide)
    (by decide) (by decide) (by decide) (by intro j h1 h2; omega) (by decide) (by decide)
    (by decide)
  exact absurd h (by decide)

/-- C14, amended: in every state reached from the initial state by calls
`handleStepChange(t)` with t in 1..5 and calls `handleStepComplete(s, r)` with s
in 1..5, a non-empty r, and s = 1 or the slot of stage s-1 non-empty, if f is the
smallest stage whose slot is empty then `handleStepChange(t)` is refused, the
state staying as it was, for every stage t beyond both the current step and f. -/
theorem forward_beyond_first_incomplete (events : List Event) (f t : Int)
    (hvalid : validTrace orderedCall initialState events = true)
    (hf1 : 1 ≤ f) (hf5 : f ≤ 5)
    (hempty : (stageSlot (run initialState events) f).truthy = false)
    (_hmin : ∀ j : Int, 1 ≤ j → j < f →
      (stageSlot (run initialState events) j).truthy = true)
    (ht5 : t ≤ 5) (hta : (run initialState events).currentStep < t) (htf : f < t) :
    handleStepChange (run initialState events) t = run initialState events ∧
    (handleStepChange (run initialState events) t).currentStep ≠ t := by
  obtain ⟨m, hm0, hm5, hslots, ha1, ha5, ham⟩ :=
    filledInOrder_run orderedCall filledInOrder_orderedCall events initialState
      filledInOrder_initialState hvalid
  have hfm : m < f := by
    by_contra hle
    have := (hslots f hf1 hf5).mpr (by omega)
    rw [hempty] at this
    exact absurd this (by decide)
  have hprev : (stageSlot (run initialState events) (t - 1)).truthy = false := by
    cases hslot : (stageSlot (run initialState events) (t - 1)).truthy
    · rfl
    · have := (hslots (t - 1) (by omega) (by omega)).mp hslot
      omega
  have hsame : handleStepChange (run initialState events) t = run initialState events := by
    rw [handleStepChange_beyond _ t (by omega) ht5 hta, hprev]
    simp
  refine ⟨hsame, ?_⟩
  rw [hsame]
  omega

/-- Instance of amended C14: after the upload alone the first empty slot is that
of stage 2, and the request for stage 3 is refused. -/
theorem forward_beyond_first_incomplete_witness :
    validTrace orderedCall initialState [Event.stepComplete 1 uploadResult] = true ∧
    (1 : Int) ≤ 2 ∧ (2 : Int) ≤ 5 ∧
    (stageSlot (run initialState [Event.stepComplete 1 uploadResult]) 2).truthy = false ∧
    (∀ j : Int, 1 ≤ j → j < 2 →
      (stageSlot (run initialState [Event.stepComplete 1 uploadResult]) j).truthy = true) ∧
    (3 : Int) ≤ 5 ∧ (run initialState [Event.stepComplete 1 uploadResult]).currentStep < 3 ∧
    (2 : Int) < 3 ∧
    (handleStepChange (run initialState [Event.stepComplete 1 uploadResult]) 3
        = run initialState [Event.stepComplete 1 uploadResult] ∧
      (handleStepChange (run initialState [Event.stepComplete 1 uploadResult]) 3).currentStep
        ≠ 3) :=
  have hmin : ∀ j : Int, 1 ≤ j → j < 2 →
      (stageSlot (run initialState [Event.stepComplete 1 uploadResult]) j).truthy = true := by
    intro j h1 h2
    have hj : j = 1 := by omega
    subst hj
    decide
  ⟨by decide, by decide, by decide, by decide, hmin, by decide, by decide, by decide,
    forward_beyond_first_incomplete [Event.stepComplete 1 uploadResult] 2 3 (by decide)
      (by decide) (by decide) (by decide) hmin (by decide) (by decide) (by decide)⟩

/-! ## The flow and the legality of jumps -/

/-- C15: in every state reached from the initial state by clicks that
`PipelineFlow` allows and by completions of the mounted stage with a non-empty
result, every flow element rendered clickable is a target `handleStepChange`
accepts: the click sets the current step to the clicked stage. -/
theorem clickable_is_accepted (events : List Event) (index : Nat) (step : Step)
    (hvalid : validTrace flowCall initialState events = true)
    (hstep : steps.get? index = some step)
    (hclick : isClickable (run initialState events) step index = true) :
    handleStepChange (run initialState events) step.id
      = { run initialState events with currentStep := step.id } ∧
    (handleStepChange (run initialState events) step.id).currentStep = step.id ∧
    (flowClick (run initialState events) index).currentStep = step.id := by
  obtain ⟨m, hm0, hm5, hslots, ha1, ha5, ham⟩ :=
    filledInOrder_run flowCall filledInOrder_flowCall events initialState
      filledInOrder_initialState hvalid
  obtain ⟨hid, hidx⟩ := steps_get_id hstep
  have haccept : handleStepChange (run initialState events) step.id
      = { run initialState events with currentStep := step.id } := by
    by_cases hback : step.id = 1 ∨ step.id ≤ (run initialState events).currentStep
    · simp only [handleStepChange, if_pos hback]
    · have hgt : (run initialState events).currentStep < step.id := by omega
      have hlt : ¬ step.id < (run initialState events).currentStep := by omega
      have hne : ¬ step.id = (run initialState events).currentStep := by omega
      have h0 : index ≠ 0 := by
        intro h0
        subst h0
        simp at hid
        omega
      -- beyond the current step the element is clickable only through its own slot
      have hown : (stageSlot (run initialState events) step.id).truthy = true := by
        cases hslot : (stageSlot (run initialState events) step.id).truthy
        · unfold stageSlot at hslot
          simp [isClickable, getStepStatus, hlt, hne, hslot, h0] at hclick
        · rfl
      have hm : step.id ≤ m := (hslots step.id (by omega) (by omega)).mp hown
      have hprev : (stageSlot (run initialState events) (step.id - 1)).truthy = true :=
        (hslots (step.id - 1) (by omega) (by omega)).mpr (by omega)
      rw [handleStepChange_beyond _ step.id (by omega) (by omega) hgt, hprev]
      simp
  refine ⟨haccept, ?_, ?_⟩
  · rw [haccept]
  · simp only [flowClick, hstep, onClick, hclick, if_true]
    rw [haccept]

/-- Instance of C15: back at stage 1 after three completions, the element of
stage 3 is clickable and the click is accepted. -/
theorem clickable_is_accepted_witness :
    validTrace flowCall initialState
      [Event.stepComplete 1 uploadResult, Event.stepComplete 2 preResult,
        Event.stepComplete 3 splitResult, Event.click 0] = true ∧
    steps.get? 2 = some
      { id := 3, name := "Split Data", component := Component.StepSplit } ∧
    isClickable (run initialState
      [Event.stepComplete 1 uploadResult, Event.stepComplete 2 preResult,
        Event.stepComplete 3 splitResult, Event.click 0])
      { id := 3, name := "Split Data", component := Component.StepSplit } 2 = true ∧
    (flowClick (run initialState
      [Event.stepComplete 1 uploadResult, Event.stepComplete 2 preResult,
        Event.stepComplete 3 splitResult, Event.click 0]) 2).currentStep = 3 :=
  ⟨by decide, by decide, by decide,
    (clickable_is_accepted
      [Event.stepComplete 1 uploadResult, Event.stepComplete 2 preResult,
        Event.stepComplete 3 splitResult, Event.click 0] 2
      { id := 3, name := "Split Data", component := Component.StepSplit }
      (by decide) (by decide) (by decide)).2.2⟩

/-! ## Reachable states -/

/-- In a state whose current step is a stage the mounted view is defined. -/
theorem currentStepComponent_isSome (s : State) (h1 : 1 ≤ s.currentStep)
    (h5 : s.currentStep ≤ 5) : (CurrentStepComponent s).isSome = true := by
  obtain ⟨a, ps⟩ := s
  simp only at h1 h5
  rcases stage_cases h1 h5 with rfl | rfl | rfl | rfl | rfl <;> rfl

/-- C17: when the only transitions are `handleStepChange(t)` for t in 1..5 and
the completion of the mounted stage with a non-empty result, every reachable
state has its current step in 1..5, so that `steps[currentStep - 1]` is defined;
its non-empty slots are those of the stages 1..m for some m, with the current
step at most m + 1; hence every stage strictly before the current step, which
`getStepStatus` reports as completed, has a non-empty result. -/
theorem reachable_invariant (events : List Event)
    (hvalid : validTrace mountedCall initialState events = true) :
    1 ≤ (run initialState events).currentStep ∧
    (run initialState events).currentStep ≤ 5 ∧
    (arrayGet steps ((run initialState events).currentStep - 1)).isSome = true ∧
    (CurrentStepComponent (run initialState events)).isSome = true ∧
    (∃ m : Int, 0 ≤ m ∧ m ≤ 5 ∧
      (∀ i : Int, 1 ≤ i → i ≤ 5 →
        ((stageSlot (run initialState events) i).truthy = true ↔ i ≤ m)) ∧
      (run initialState events).currentStep ≤ m + 1) ∧
    (∀ i : Int, 1 ≤ i → i < (run initialState events).currentStep →
      getStepStatus (run initialState events) i = StepStatus.completed ∧
      (stageSlot (run initialState events) i).truthy = true) := by
  obtain ⟨m, hm0, hm5, hslots, ha1, ha5, ham⟩ :=
    filledInOrder_run mountedCall filledInOrder_mountedCall events initialState
      filledInOrder_initialState hvalid
  have hsome := currentStepComponent_isSome (run initialState events) ha1 ha5
  refine ⟨ha1, ha5, ?_, hsome, ⟨m, hm0, hm5, hslots, ham⟩, ?_⟩
  · unfold CurrentStepComponent at hsome
    simpa using hsome
  · intro i hi1 hia
    refine ⟨?_, (hslots i hi1 (by omega)).mpr (by omega)⟩
    simp only [getStepStatus, if_pos hia]

/-- Instance of C17: three completions of the mounted stage, then back to 2. -/
theorem reachable_invariant_witness :
    validTrace mountedCall initialState
      [Event.stepComplete 1 uploadResult, Event.stepComplete 2 preResult,
        Event.stepComplete 3 splitResult, Event.stepChange 2] = true ∧
    (run initialState
      [Event.stepComplete 1 uploadResult, Event.stepComplete 2 preResult,
        Event.stepComplete 3 splitResult, Event.stepChange 2]).currentStep = 2 ∧
    (run initialState
      [Event.stepComplete 1 uploadResult, Event.stepComplete 2 preResult,
        Event.stepComplete 3 splitResult, Event.stepChange 2]).currentStep ≤ 5 :=
  ⟨by decide, by decide,
    (reachable_invariant
      [Event.stepComplete 1 uploadResult, Event.stepComplete 2 preResult,
        Event.stepComplete 3 splitResult, Event.stepChange 2] (by decide)).2.1⟩

/-! ## The flow is narrower than the handler -/

/-- C18: in a state whose current step is at least 1, a stage beyond the current
step whose own slot is empty is rendered pending and not clickable, and a click
on it does nothing, whatever the slot of the preceding stage holds.  The state
reached by completing stages 1, 2 and 3 and going back to stage 1 is such a
state for stage 4: the slot of stage 3 is non-empty and `handleStepChange(4)`
is accepted, yet the flow element of stage 4 is pending and not clickable. -/
theorem flow_narrower_than_handler :
    (∀ (st : State) (index : Nat) (step : Step), steps.get? index = some step →
      1 ≤ st.currentStep → st.currentStep < step.id →
      (stageSlot st step.id).truthy = false →
      getStepStatus st step.id = StepStatus.pending ∧
      isClickable st step index = false ∧
      flowClick st index = st) ∧
    backAfterSplit = run initialState
      [Event.stepComplete 1 uploadResult, Event.stepComplete 2 preResult,
        Event.stepComplete 3 splitResult, Event.stepChange 1] ∧
    validTrace mountedCall initialState
      [Event.stepComplete 1 uploadResult, Event.stepComplete 2 preResult,
        Event.stepComplete 3 splitResult, Event.stepChange 1] = true ∧
    backAfterSplit.currentStep = 1 ∧
    (stageSlot backAfterSplit 4).truthy = false ∧
    (stageSlot backAfterSplit 3).truthy = true ∧
    (handleStepChange backAfterSplit 4).currentStep = 4 ∧
    steps.get? 3 = some
      { id := 4, name := "Select Model", component := Component.StepModel } ∧
    getStepStatus backAfterSplit 4 = StepStatus.pending ∧
    isClickable backAfterSplit
      { id := 4, name := "Select Model", component := Component.StepModel } 3 = false ∧
    flowClick backAfterSplit 3 = backAfterSplit := by
  refine ⟨?_, by decide, by decide, by decide, by decide, by decide, by decide, by decide,
    by decide, by decide, by decide⟩
  intro st index step hstep ha hgt hempty
  obtain ⟨hid, hidx⟩ := steps_get_id hstep
  have hlt : ¬ step.id < st.currentStep := by omega
  have hne : ¬ step.id = st.currentStep := by omega
  have h0 : index ≠ 0 := by
    intro h0
    subst h0
    simp at hid
    omega
  have hstatus : getStepStatus st step.id = StepStatus.pending := by
    unfold stageSlot at hempty
    simp [getStepStatus, hlt, hne, hempty]
  have hnot : isClickable st step index = false := by
    simp [isClickable, hstatus, h0]
  refine ⟨hstatus, hnot, ?_⟩
  unfold flowClick
  rw [hstep]
  simp [onClick, hnot]

end PipelineBuilder
